import Mathlib

/-!
Verification development for the warc-tools repository (Go, 3 source files):
  * src/detect-chinese/detect_chinese.go  — byte-offset sampling classifier
  * src/unnamed/part_000                  — rune-index sampling classifier
  * src/read-meta/read_meta.go            — metadata correlator

The Go code is shallowly embedded: byte streams become `List Char` (each
`Char` is one decoded UTF-8 codepoint, with its UTF-8 byte length computed
by `runeLen`), channels become explicit event lists, the random source
becomes an explicit function `Nat → Nat` giving the successive values of
`rand.Int()`, and `panic`/`log.Fatal` become explicit outcome constructors.

Floating point: the Go classifiers compute `ratio := c/float64(n)` and
compare `ratio > threshold` with `threshold` 0.35 or 0.3 (float64).  We
model the ratio in ℚ.  This is exact for every reachable comparison: the
reachable ratios are quotients c/n with n ≤ 500 (resp. 200), so any ratio
different from the threshold differs from it by at least 1/10000, while
float64 rounding of the division and of the threshold constant perturbs
each side by less than 6e-17; and a ratio exactly equal to the rational
threshold rounds to the same double as the threshold constant, making the
strict comparison false, exactly as in the rational model.
-/

set_option maxRecDepth 4000

namespace WarcShared

/-- Whitespace test used by Go's `strings.TrimSpace` for the ASCII range
(plus NEL and NBSP, the Latin-1 white space characters Go also trims).
All header and marker lines in this system are ASCII. -/
def isSpaceCh (c : Char) : Bool :=
  c = ' ' || c = '\t' || c = '\n' || c = '\r' ||
  c = '\x0b' || c = '\x0c' || c = '\x85' || c = '\xa0'

/-- `strings.TrimSpace`: drop whitespace from both ends. -/
def trimSpace (l : List Char) : List Char :=
  ((l.dropWhile isSpaceCh).reverse.dropWhile isSpaceCh).reverse

/-- `bufio.Reader.ReadString('\n')`: split off the first line including its
terminating newline.  `none` means no newline remains before end of input,
in which case Go returns the partial data together with `io.EOF` (every
call site in this repository then discards the partial data). -/
def splitAtNL : List Char → Option (List Char × List Char)
  | [] => none
  | c :: t =>
    if c = '\n' then some ([c], t)
    else
      match splitAtNL t with
      | some (l, r) => some (c :: l, r)
      | none => none

/-- `strings.HasPrefix` (the sources also spell it as a bounds-checked
byte-slice comparison, which is equivalent). -/
def hasPrefixStr (s pre : String) : Bool :=
  pre.data.isPrefixOf s.data

/-- Byte-indexed suffix `line[n:]` for lines whose first `n` bytes are
ASCII (every prefix sliced in the sources is ASCII, so byte index = char
index). -/
def dropChars (s : String) (n : Nat) : String :=
  ⟨s.data.drop n⟩

/-- `strings.Join(parts, sep)`. -/
def joinSep (sep : String) : List String → String
  | [] => ""
  | [x] => x
  | x :: xs => x ++ sep ++ joinSep sep xs

/-- `utf8.RuneLen` / the number of bytes a codepoint occupies in a Go
string (valid codepoints only, which is all a `Char` can hold). -/
def runeLen (c : Char) : Nat :=
  if c.toNat < 0x80 then 1
  else if c.toNat < 0x800 then 2
  else if c.toNat < 0x10000 then 3
  else 4

/-- `len(s)` for a Go string holding the UTF-8 encoding of `l`. -/
def utf8Len (l : List Char) : Nat :=
  (l.map runeLen).sum

/-- `strings.Contains s pat`. -/
def containsSub (s pat : String) : Bool :=
  s.data.tails.any (fun t => pat.data.isPrefixOf t)

theorem splitAtNL_rest_length {s l r : List Char}
    (h : splitAtNL s = some (l, r)) : r.length < s.length := by
  induction s generalizing l r with
  | nil => simp [splitAtNL] at h
  | cons c t ih =>
    by_cases hc : c = '\n'
    · simp only [splitAtNL, if_pos hc, Option.some.injEq, Prod.mk.injEq] at h
      obtain ⟨-, h2⟩ := h
      subst h2
      exact Nat.lt_succ_self _
    · simp only [splitAtNL, if_neg hc] at h
      cases ht : splitAtNL t with
      | none => rw [ht] at h; simp at h
      | some p =>
        obtain ⟨l', r'⟩ := p
        rw [ht] at h
        simp only [Option.some.injEq, Prod.mk.injEq] at h
        obtain ⟨-, h2⟩ := h
        subst h2
        exact Nat.lt_succ_of_lt (ih ht)

end WarcShared

namespace DetectChinese

/-!
Embedding of src/detect-chinese/detect_chinese.go, the byte-offset
sampling classifier.  `chinese_chars` (a `map[rune]bool` built once from a
seed file and read-only afterwards) is modelled as the membership function
`tset : Char → Bool` passed to each function; the successive values of
`rand.Int()` are the function `rands : Nat → Nat`; sending a string on the
result channel `ch` becomes returning `POut.msg`, and `panic` becomes
`POut.panicked`.
-/

/-- detect_chinese.go lines 20-24. -/
structure warcRecord where
  id : String
  body : String
deriving DecidableEq

/-- Result of `interpret`: the Go function returns `nil` (modelled `skip`),
panics, or returns a record. -/
inductive IRes
  | skip
  | panicked (msg : String)
  | ok (w : warcRecord)
deriving DecidableEq

/-- The loop of `interpret` (detect_chinese.go lines 29-49) together with
the post-loop checks (lines 51-53): `body` and `warc.id` are the mutable
locals carried as accumulators. -/
def interpretAux : List String → List String → String → IRes
  | [], body, id =>
    if body = [] then .skip
    else if id = "" then .panicked "Record missing ID"
    else .ok ⟨id, WarcShared.joinSep " " body⟩
  | line :: rest, body, id =>
    if line = "" then interpretAux rest body id
    else if WarcShared.hasPrefixStr line "WARC" then
      if line = "WARC-Type: warcinfo" then .skip
      else if WarcShared.hasPrefixStr line "WARC-Record-ID: " then
        interpretAux rest body (WarcShared.dropChars line 16)
      else interpretAux rest body id
    else if WarcShared.hasPrefixStr line "Content-" then
      interpretAux rest body id
    else interpretAux rest (body ++ [line]) id

/-- detect_chinese.go lines 26-55. -/
def interpret (r : List String) : IRes := interpretAux r [] ""

/-- What `process` does with its channel: send a string, or panic. -/
inductive POut
  | msg (s : String)
  | panicked (msg : String)
deriving DecidableEq

/-- The exhaustive regime (detect_chinese.go lines 69-84): one pass
accumulating the match count `c` and the rune count `n` (the code zeroes
`n` and increments it per rune).  `c` is a float64 in the source but only
ever holds the integer count of matches. -/
def exLoop (tset : Char → Bool) (l : List Char) : Nat × Nat :=
  l.foldl (fun p ru => (if tset ru then p.1 + 1 else p.1, p.2 + 1)) (0, 0)

def exhaustiveCase (w : warcRecord) (tset : Char → Bool) : POut :=
  let p := exLoop tset w.body.data
  if (p.1 : ℚ) / (p.2 : ℚ) > 35 / 100 then .msg w.id else .msg ""

/-- detect_chinese.go lines 87-92: draw 500 byte offsets uniformly below
`len(warc.body)` and sort them ascending (`sort.Ints`; the sorted result
does not depend on the sorting algorithm). -/
def sampleIndices (rands : Nat → Nat) (n bl : Nat) : List Nat :=
  List.insertionSort (· ≤ ·) ((List.range n).map (fun i => rands i % bl))

/-- detect_chinese.go lines 95-108: walk the runes of the body at byte
offset `k`; whenever the next pending sorted sample offset falls inside
the current rune, test that rune once, bump the unique-sample counter `m`,
and drop every pending sample offset inside the rune (`j` advancing past
duplicates); stop early when the samples are exhausted (the `break`).
Returns `(c, m, pending samples left over)`; the code's `j` equals the
number of consumed samples, so `j ≠ n` iff the returned list is nonempty. -/
def sampleScan (tset : Char → Bool) :
    List Char → Nat → List Nat → Nat → Nat → Nat × Nat × List Nat
  | [], _, samples, c, m => (c, m, samples)
  | ru :: rest, k, samples, c, m =>
    match samples with
    | [] => (c, m, [])
    | s :: _ =>
      let rl := WarcShared.runeLen ru
      if s < k + rl then
        sampleScan tset rest (k + rl) (samples.dropWhile (fun x => x < k + rl))
          (if tset ru then c + 1 else c) (m + 1)
      else
        sampleScan tset rest (k + rl) samples c m

/-- The sampled regime (detect_chinese.go lines 86-117): scan, panic when
some samples were never found (`if j != n`), otherwise decide on
`c / float64(n)` with `n = 500`. -/
def sampledCase (w : warcRecord) (rands : Nat → Nat) (tset : Char → Bool) : POut :=
  let bl := WarcShared.utf8Len w.body.data
  let t := sampleScan tset w.body.data 0 (sampleIndices rands 500 bl) 0 0
  if t.2.2 ≠ [] then .panicked "Only found j of n samples"
  else if (t.1 : ℚ) / 500 > 35 / 100 then .msg w.id else .msg ""

/-- detect_chinese.go lines 57-118: skip nil records (sending ""), then
choose the regime by `len(warc.body) <= n` with `n = 500` — the BYTE
length of the body, not its rune count. -/
def process (r : List String) (rands : Nat → Nat) (tset : Char → Bool) : POut :=
  match interpret r with
  | .panicked msg => .panicked msg
  | .skip => .msg ""
  | .ok w =>
    if WarcShared.utf8Len w.body.data ≤ 500 then exhaustiveCase w tset
    else sampledCase w rands tset

end DetectChinese

namespace RuneVariant

/-!
Embedding of src/unnamed/part_000, the rune-index sampling classifier
(sample budget 200, threshold 0.3, match output = the reconstructed body
text rather than the record id).
-/

/-- The loop of `recordBody` (part_000 lines 22-39); returns `none` when a
`warcinfo` record is recognised, else the accumulated body lines (which,
unlike the other variant, may be empty). -/
def recordBodyAux : List String → List String → Option (List String)
  | [], body => some body
  | line :: rest, body =>
    if line = "" then recordBodyAux rest body
    else if WarcShared.hasPrefixStr line "WARC" then
      if line = "WARC-Type: warcinfo" then none
      else recordBodyAux rest body
    else if WarcShared.hasPrefixStr line "Content-" then
      recordBodyAux rest body
    else recordBodyAux rest (body ++ [line])

/-- part_000 lines 20-41. -/
def recordBody (r : List String) : Option (List String) := recordBodyAux r []

/-- The exhaustive regime (part_000 lines 63-78): `n` is reassigned to the
rune count; with an empty body this divides 0 by 0, which in Go produces
NaN and a false comparison, and in ℚ produces 0 and a false comparison —
the same "" is sent either way. -/
def exhaustiveCase (bodyStr : String) (runes : List Char) (tset : Char → Bool) : String :=
  let n := runes.length
  let c := runes.foldl (fun c ru => if tset ru then c + 1 else c) 0
  if (c : ℚ) / (n : ℚ) > 3 / 10 then bodyStr else ""

/-- The sampled regime (part_000 lines 81-102): 200 rune indices drawn
mod the rune count, sorted, then every sampled index is consulted — with
multiplicity, duplicates are not dropped.  The `getD` default is never
consulted: every index is `< runes.length` by the mod (Go would panic on
an out-of-range index). -/
def sampledCase (bodyStr : String) (runes : List Char) (rands : Nat → Nat)
    (tset : Char → Bool) : String :=
  let idxs := List.insertionSort (· ≤ ·)
    ((List.range 200).map (fun i => rands i % runes.length))
  let c := idxs.foldl (fun c i => if tset (runes.getD i 'A') then c + 1 else c) 0
  if (c : ℚ) / 200 > 3 / 10 then bodyStr else ""

/-- part_000 lines 43-104: skip nil records (sending ""), join the body
lines, expand to a rune slice, and choose the regime by `len(runes) <= n`
with `n = 200` — the rune count. -/
def process (r : List String) (rands : Nat → Nat) (tset : Char → Bool) : String :=
  match recordBody r with
  | none => ""
  | some body =>
    let bodyStr := WarcShared.joinSep " " body
    let runes := bodyStr.data
    if runes.length ≤ 200 then exhaustiveCase bodyStr runes tset
    else sampledCase bodyStr runes rands tset

end RuneVariant

namespace ReadMeta

/-!
Embedding of src/read-meta/read_meta.go.  The JSON decode targets are
plain data contracts; `json.Unmarshal` itself (external library) is
modelled as a parameter `decode : WarcMeta → List Char → Option WarcMeta`.
It receives the previous contents of the loop-scoped `var meta WarcMeta`
because `Unmarshal` fills fields in place: fields absent from the JSON
keep their old values.  `decode … = none` models an Unmarshal error
(`log.Fatal`).
-/

/-- read_meta.go lines 15-20. -/
structure GzipMetaData where
  footerLength : Int
  deflateLength : Int
  headerLength : Int
  inflatedLength : Int
deriving DecidableEq

/-- read_meta.go lines 22-27. -/
structure WarcContainer where
  compressed : Bool
  offset : Int
  filename : String
  gzipMeta : GzipMetaData
deriving DecidableEq

/-- read_meta.go lines 38-44. -/
structure WarcMetaData where
  type : String
  length : Int
  recordId : String
  uri : String
  contentType : String
deriving DecidableEq

/-- read_meta.go lines 59-61. -/
structure ResponseMessage where
  status : Int
deriving DecidableEq

/-- read_meta.go lines 50-52. -/
structure HTTPHeaders where
  contentType : String
deriving DecidableEq

/-- read_meta.go lines 54-57. -/
structure ResponseMetaData where
  responseInfo : ResponseMessage
  headers : HTTPHeaders
deriving DecidableEq

/-- read_meta.go lines 46-48. -/
structure PayloadMetaData where
  responseMeta : ResponseMetaData
deriving DecidableEq

/-- read_meta.go lines 29-36. -/
structure WarcEnvelope where
  format : String
  headerLength : Int
  digest : String
  contentLength : Int
  headerMetaData : WarcMetaData
  payloadMetaData : PayloadMetaData
deriving DecidableEq

/-- read_meta.go lines 63-66. -/
structure WarcMeta where
  envelope : WarcEnvelope
  container : WarcContainer
deriving DecidableEq

/-- The zero value of `WarcMeta` (`var meta WarcMeta`, read_meta.go line 141). -/
def zeroMeta : WarcMeta :=
  ⟨⟨"", 0, "", 0, ⟨"", 0, "", "", ""⟩, ⟨⟨⟨0⟩, ⟨""⟩⟩⟩⟩, ⟨false, 0, "", ⟨0, 0, 0, 0⟩⟩⟩

/-- read_meta.go lines 68-74. -/
structure record where
  length : Int
  refersTo : String
  header : List String
  warcType : String
  data : List Char
deriving DecidableEq

def digitsValAux : List Char → Nat → Option Nat
  | [], acc => some acc
  | c :: t, acc =>
    if c.isDigit then digitsValAux t (acc * 10 + (c.toNat - 48)) else none

/-- `strconv.Atoi`: optional sign, then one or more decimal digits (the
64-bit overflow error is not modelled; no claim depends on it). -/
def atoiGo (s : String) : Option Int :=
  match s.data with
  | [] => none
  | '+' :: rest => if rest = [] then none else (digitsValAux rest 0).map Int.ofNat
  | '-' :: rest => if rest = [] then none else (digitsValAux rest 0).map (fun n => -(n : Int))
  | l => (digitsValAux l 0).map Int.ofNat

/-- Outcome of the marker-seeking loop, read_meta.go lines 85-96: any
`ReadString` error (end of stream in our model) is returned to the caller
as `(nil, err)`, a non-blank non-marker line panics. -/
inductive SeekRes
  | ok (rest : List Char)
  | errEof
  | panicked (msg : String)
deriving DecidableEq

def seekMarker (s : List Char) : SeekRes :=
  match h : WarcShared.splitAtNL s with
  | none => .errEof
  | some (line, rest) =>
    if (⟨WarcShared.trimSpace line⟩ : String) = "WARC/1.0" then .ok rest
    else if (⟨WarcShared.trimSpace line⟩ : String) = "" then seekMarker rest
    else .panicked "Malformed first line"
termination_by s.length
decreasing_by exact WarcShared.splitAtNL_rest_length h

/-- The header fields `nextRecord` accumulates (read_meta.go line 78 `rec`
before the body is attached). -/
structure HFields where
  length : Int
  refersTo : String
  warcType : String
  header : List String
deriving DecidableEq

/-- State on entering the header loop: the marker line has been appended
(read_meta.go line 97). -/
def initFields : HFields := ⟨0, "", "", ["WARC/1.0"]⟩

inductive HRes
  | ok (f : HFields) (rest : List Char)
  | errParse
  | panicked (msg : String)
deriving DecidableEq

/-- The prefix-matched field updates of the header loop (read_meta.go
lines 108-115); `none` is a failed `strconv.Atoi`, which `nextRecord`
returns as a non-EOF error. -/
def updateField (f : HFields) (t : String) : Option HFields :=
  if WarcShared.hasPrefixStr t "WARC-Type: " then
    some ⟨f.length, f.refersTo, WarcShared.dropChars t 11, f.header⟩
  else if WarcShared.hasPrefixStr t "Content-Length: " then
    match atoiGo (WarcShared.dropChars t 16) with
    | none => none
    | some v => some ⟨v, f.refersTo, f.warcType, f.header⟩
  else if WarcShared.hasPrefixStr t "WARC-Refers-To: " then
    some ⟨f.length, WarcShared.dropChars t 16, f.warcType, f.header⟩
  else some f

/-- The header loop, read_meta.go lines 100-119.  The fuel argument is the
code's own `failSafe` counter (started at 100, decremented per header
line and appended to the header, panic when it reaches 0).  `io.EOF`
inside the loop breaks out of it with the partial line discarded and the
stream exhausted; a blank line breaks normally. -/
def parseHeader : Nat → HFields → List Char → HRes
  | 0, _, _ => .panicked "Hit failsafe when reading header"
  | fuel + 1, f, s =>
    match WarcShared.splitAtNL s with
    | none => .ok f []
    | some (line, rest) =>
      if (⟨WarcShared.trimSpace line⟩ : String) = "" then .ok f rest
      else
        match updateField f ⟨WarcShared.trimSpace line⟩ with
        | none => .errParse
        | some f1 =>
          if fuel = 0 then .panicked "Hit failsafe when reading header"
          else parseHeader fuel
            ⟨f1.length, f1.refersTo, f1.warcType,
              f1.header ++ [(⟨WarcShared.trimSpace line⟩ : String)]⟩ rest

/-- Outcome of `nextRecord`: a record plus unread stream, `(nil, io.EOF)`,
`(nil, err)` for a non-EOF error, or a panic. -/
inductive NRes
  | ok (r : record) (rest : List Char)
  | eofEnd
  | errOther
  | panicked (msg : String)
deriving DecidableEq

/-- read_meta.go lines 77-135.  The body loop (lines 124-129) calls
`reader.Read` until `bytes == rec.length`; with a buffered reader each
call returns at least one byte while data remains and `(0, io.EOF)` once
the stream is exhausted, so the loop reads the body iff at least
`rec.length` bytes remain and otherwise returns `(nil, io.EOF)` — the
same value a clean end of stream produces.  The `bytes != rec.length`
panic after the loop is unreachable.  A negative declared length would
make `make([]byte, rec.length)` panic in the Go runtime. -/
def nextRecord (s : List Char) : NRes :=
  match seekMarker s with
  | .errEof => .eofEnd
  | .panicked m => .panicked m
  | .ok rest =>
    match parseHeader 100 initFields rest with
    | .errParse => .errOther
    | .panicked m => .panicked m
    | .ok f rest2 =>
      if f.length = 0 then .panicked "No record length"
      else if f.length < 0 then .panicked "makeslice: len out of range"
      else if rest2.length < f.length.toNat then .eofEnd
      else .ok ⟨f.length, f.refersTo, f.header, f.warcType, rest2.take f.length.toNat⟩
          (rest2.drop f.length.toNat)

/-- The ways `readMeta` can abort the process. -/
inductive MetaAbort
  | panicNoRefers
  | decodeFatal
  | readFatal
  | panicked (msg : String)
deriving DecidableEq

/-- The per-record filtering of `readMeta` (read_meta.go lines 151-175),
up to but excluding the grouped printing: the value is the emitted
`(filename, offset, deflate length)` triple, if any, together with the
contents of `meta` after this record. -/
def metaStep (ids : String → Bool) (decode : WarcMeta → List Char → Option WarcMeta)
    (prev : WarcMeta) (r : record) :
    Except MetaAbort (Option (String × Int × Int) × WarcMeta) :=
  if r.warcType ≠ "metadata" then .ok (none, prev)
  else if r.refersTo = "" then .error .panicNoRefers
  else if ¬ ids r.refersTo then .ok (none, prev)
  else
    match decode prev r.data with
    | none => .error .decodeFatal
    | some m =>
      if m.envelope.headerMetaData.type = "response" then
        if m.envelope.payloadMetaData.responseMeta.responseInfo.status ≠ 200 then
          .ok (none, m)
        else if WarcShared.containsSub
            m.envelope.payloadMetaData.responseMeta.headers.contentType "text/html" then
          .ok (some (m.container.filename, m.container.offset,
                m.container.gzipMeta.deflateLength), m)
        else .ok (none, m)
      else .ok (none, m)

/-- One printed line of correlator output. -/
inductive OutLine
  | blank
  | name (s : String)
  | pair (offset deflate : Int)
deriving DecidableEq

/-- The grouped printing, read_meta.go lines 164-173: a filename change
prints a separating blank line (except before the first group) and the new
filename, then the offset/deflate-length pair is printed. -/
def emitGroup (filename f : String) (o d : Int) : List OutLine × String :=
  if filename ≠ f then
    ((if filename ≠ "" then [OutLine.blank] else []) ++
      [OutLine.name f, OutLine.pair o d], f)
  else ([OutLine.pair o d], filename)

theorem parseHeader_rest_length {fuel : Nat} {f f' : HFields} {s rest : List Char}
    (h : parseHeader fuel f s = HRes.ok f' rest) : rest.length ≤ s.length := by
  induction fuel generalizing f s with
  | zero => simp [parseHeader] at h
  | succ fuel ih =>
    rw [parseHeader] at h
    split at h
    · cases h
      simp
    · rename_i line rest1 heq
      have hlt := WarcShared.splitAtNL_rest_length heq
      split at h
      · cases h
        exact le_of_lt hlt
      · split at h
        · cases h
        · split at h
          · cases h
          · exact le_trans (ih h) (le_of_lt hlt)

theorem seekMarker_rest_length {s rest : List Char}
    (h : seekMarker s = SeekRes.ok rest) : rest.length < s.length := by
  induction s using seekMarker.induct with
  | case1 s heq => rw [seekMarker, heq] at h; cases h
  | case2 s line r heq hm =>
    rw [seekMarker, heq] at h
    simp only [if_pos hm] at h
    cases h
    exact WarcShared.splitAtNL_rest_length heq
  | case3 s line r heq hm hb ih =>
    rw [seekMarker, heq] at h
    simp only [if_neg hm, if_pos hb] at h
    exact lt_trans (ih h) (WarcShared.splitAtNL_rest_length heq)
  | case4 s line r heq hm hb =>
    rw [seekMarker, heq] at h
    simp only [if_neg hm, if_neg hb] at h
    cases h

theorem nextRecord_rest_length {s rest : List Char} {r : record}
    (h : nextRecord s = NRes.ok r rest) : rest.length < s.length := by
  unfold nextRecord at h
  split at h
  · cases h
  · cases h
  · rename_i rest1 hseek
    have h1 := seekMarker_rest_length hseek
    split at h
    · cases h
    · cases h
    · rename_i f rest2 hph
      have h2 := parseHeader_rest_length hph
      split at h
      · cases h
      · split at h
        · cases h
        · split at h
          · cases h
          · cases h
            have h3 : (List.drop f.length.toNat rest2).length ≤ rest2.length := by
              rw [List.length_drop]
              omega
            omega

/-- The driving loop of `readMeta` (read_meta.go lines 138-177): clean
`io.EOF` from `nextRecord` ends the loop normally; any other error is
`log.Fatal`; panics propagate; otherwise the record is filtered and the
grouped output lines are accumulated in print order. -/
def readMeta (ids : String → Bool) (decode : WarcMeta → List Char → Option WarcMeta)
    (s : List Char) (filename : String) (meta : WarcMeta) :
    Except MetaAbort (List OutLine) :=
  match hnr : nextRecord s with
  | .eofEnd => .ok []
  | .errOther => .error .readFatal
  | .panicked m => .error (.panicked m)
  | .ok r rest =>
    match metaStep ids decode meta r with
    | .error a => .error a
    | .ok (none, m1) => readMeta ids decode rest filename m1
    | .ok (some (f, o, d), m1) =>
      match readMeta ids decode rest (emitGroup filename f o d).2 m1 with
      | .error a => .error a
      | .ok ls => .ok ((emitGroup filename f o d).1 ++ ls)
termination_by s.length
decreasing_by
  all_goals exact nextRecord_rest_length hnr

end ReadMeta

namespace WarcLoop

/-!
The dispatcher loop `readWarc` (detect_chinese.go lines 192-219 and
part_000 lines 159-200; the two differ only in diagnostics printed to
stderr and in where the channel handshake lives, neither of which affects
which records are dispatched).  Reading stops at the first `ReadString`
error (end of stream; a partial final line is returned together with
`io.EOF` and discarded by the `break` before any append).  On reading a
line that trims to the record-start marker the accumulated record is
dispatched (`go process(rec, ch)`), the counter `responses_to_expect` is
incremented, and the record restarts holding just the marker line.  The
result is the list of dispatched records in launch order, paired with the
final counter value (which the dispatcher then sends on the count
channel).
-/

def readWarcAux (s : List Char) (rec : List String) : List (List String) × Nat :=
  match h : WarcShared.splitAtNL s with
  | none => ([], 0)
  | some (line, rest) =>
    if (⟨WarcShared.trimSpace line⟩ : String) = "WARC/1.0" then
      ((readWarcAux rest [⟨WarcShared.trimSpace line⟩]).1.cons rec,
        (readWarcAux rest [⟨WarcShared.trimSpace line⟩]).2 + 1)
    else readWarcAux rest (rec ++ [(⟨WarcShared.trimSpace line⟩ : String)])
termination_by s.length
decreasing_by
  all_goals exact WarcShared.splitAtNL_rest_length h

/-- The loop starts with an empty record (`var rec []string`). -/
def readWarc (s : List Char) : List (List String) × Nat := readWarcAux s []

/-- The trimmed `\n`-terminated lines of the stream, in order — what the
successive non-failing `ReadString`/`TrimSpace` pairs of the loop yield. -/
def linesOf (s : List Char) : List String :=
  match h : WarcShared.splitAtNL s with
  | none => []
  | some (line, rest) => (⟨WarcShared.trimSpace line⟩ : String) :: linesOf rest
termination_by s.length
decreasing_by exact WarcShared.splitAtNL_rest_length h

/-- `readWarcAux` viewed line by line. -/
def foldLines : List String → List String → List (List String) × Nat
  | [], _ => ([], 0)
  | t :: rest, rec =>
    if t = "WARC/1.0" then
      ((foldLines rest [t]).1.cons rec, (foldLines rest [t]).2 + 1)
    else foldLines rest (rec ++ [t])

end WarcLoop

namespace Collector

/-!
The collector goroutine `printResults` (identical control flow in
detect_chinese.go lines 156-175 and part_000 lines 137-157):

    func printResults(ch chan string, count_ch chan int) {
      var expecting int
      var received_count int = 1
      for {
        select {
          case response := <-ch:
            ... print non-empty response ...
            received_count += 1
          case expecting = <-count_ch:
        }
        if expecting > 0 && received_count == expecting {
          break
        }
      }
      count_ch <- 0
    }

We model one run of the loop against a finite list of channel deliveries
in the order the select statement would consume them.  `result s` is a
delivery on `ch`, `count k` the delivery on `count_ch`.  `collectorRun`
returns `some (obs, undelivered)` when the loop breaks having consumed all
deliveries up to that point (`obs` counts the `result` events consumed;
the code then sends the completion 0 on `count_ch`), and `none` when the
loop consumes every delivery without ever satisfying the break condition —
since no further send will ever occur, the goroutine then blocks forever.
`obs` is pure instrumentation: it does not influence control flow.
-/

inductive CEvent
  | result (s : String)
  | count (k : Int)
deriving DecidableEq

def collectorRun : List CEvent → Int → Int → Nat → Option (Nat × List CEvent)
  | [], _, _, _ => none
  | e :: rest, received, expecting, obs =>
    match e with
    | .result _ =>
      if expecting > 0 ∧ received + 1 = expecting then some (obs + 1, rest)
      else collectorRun rest (received + 1) expecting (obs + 1)
    | .count k =>
      if k > 0 ∧ received = k then some (obs, rest)
      else collectorRun rest received k obs

/-- `printResults` starts with `received_count = 1` and `expecting = 0`. -/
def printResultsRun (evs : List CEvent) : Option (Nat × List CEvent) :=
  collectorRun evs 1 0 0

end Collector

namespace Fixtures

/-- 500 copies of a three-byte CJK codepoint: 500 runes, 1500 bytes. -/
def hanStr : String := ⟨List.replicate 500 '一'⟩

def hanRecord : List String := ["WARC/1.0", "WARC-Record-ID: id1", hanStr]

def hanWarc : DetectChinese.warcRecord := ⟨"id1", hanStr⟩

def tsetHan : Char → Bool := fun c => c = '一'

/-- 501 ASCII characters: 501 runes, 501 bytes. -/
def aStr : String := ⟨List.replicate 501 'a'⟩

def aRecord : List String := ["WARC/1.0", "WARC-Record-ID: id1", aStr]

def aWarc : DetectChinese.warcRecord := ⟨"id1", aStr⟩

def tsetA : Char → Bool := fun c => c = 'a'

/-- A random source whose every draw is 0. -/
def rand0 : Nat → Nat := fun _ => 0

/-- A record whose exhaustive-regime ratio is exactly the 0.35 threshold:
7 matching runes out of 20. -/
def w20 : DetectChinese.warcRecord := ⟨"id1", "aaaaaaabbbbbbbbbbbbb"⟩

/-- 501 ASCII characters of which the first 175 match `tsetA`: with the
identity random source the sampled regime consults byte offsets 0..499 and
finds exactly 175 matches — a ratio of exactly 0.35. -/
def mixWarc175 : DetectChinese.warcRecord :=
  ⟨"id1", ⟨List.replicate 175 'a' ++ List.replicate 326 'b'⟩⟩

/-- As `mixWarc175` but with 176 matching characters: ratio strictly above
the threshold. -/
def mixWarc176 : DetectChinese.warcRecord :=
  ⟨"id1", ⟨List.replicate 176 'a' ++ List.replicate 325 'b'⟩⟩

/-- The identity random source: draw i is i. -/
def randId : Nat → Nat := fun i => i

/-- Stream whose record declares 10 body bytes but ends after 3. -/
def truncStream : List Char := "WARC/1.0\nContent-Length: 10\n\nabc".data

/-- Stream whose record header carries no Content-Length line. -/
def noLenStream : List Char := "WARC/1.0\n\n".data

/-- Stream whose record declares Content-Length 0. -/
def zeroLenStream : List Char := "WARC/1.0\nContent-Length: 0\n\nxy".data

end Fixtures

/-- Modelled from the spec (§4.1): the "reconstructed body" of a record —
the lines kept after discarding blanks and lines beginning with the
metadata prefix "WARC" or the content prefix "Content-".  Claim-side
definition, used only to state which lines the spec calls the
reconstructed body when comparing that notion with
`DetectChinese.interpret`. -/
def specReconstructedBody (r : List String) : List String :=
  r.filter (fun l =>
    !(l == "" || WarcShared.hasPrefixStr l "WARC" ||
      WarcShared.hasPrefixStr l "Content-"))

open Collector in
/-- C1: the dispatcher launches k = 1 task, which delivers exactly one
result; the count channel announces the total 1.  If the result is
consumed before the count announcement the collector never satisfies its
break condition (`received_count` is already 2 when `expecting` becomes 1)
and blocks forever; if the count is consumed first it terminates having
observed 0 results, not 1.  Either run contradicts the claim that the
collector terminates after observing exactly k results plus the total. -/
theorem c1_collector_off_by_one :
    printResultsRun [CEvent.result "", CEvent.count 1] = none ∧
    printResultsRun [CEvent.count 1, CEvent.result ""] =
      some (0, [CEvent.result ""]) := by
  decide

section Helpers

open WarcShared Fixtures

/-- 0.35-threshold comparison against a cast-denominator ratio, reduced to
naturals. -/
theorem thr35_lt_iff (c n : Nat) (hn : 0 < n) :
    ((c : ℚ) / (n : ℚ) > 35 / 100) ↔ 35 * n < 100 * c := by
  rw [gt_iff_lt, div_lt_div_iff (by norm_num) (by exact_mod_cast hn)]
  constructor
  · intro h
    have h2 : ((35 * n : ℕ) : ℚ) < ((100 * c : ℕ) : ℚ) := by push_cast; linarith
    exact_mod_cast h2
  · intro h
    have h2 : ((35 * n : ℕ) : ℚ) < ((100 * c : ℕ) : ℚ) := by exact_mod_cast h
    push_cast at h2
    linarith

/-- 0.3-threshold comparison against a cast-denominator ratio. -/
theorem thr3_lt_iff (c n : Nat) (hn : 0 < n) :
    ((c : ℚ) / (n : ℚ) > 3 / 10) ↔ 3 * n < 10 * c := by
  rw [gt_iff_lt, div_lt_div_iff (by norm_num) (by exact_mod_cast hn)]
  constructor
  · intro h
    have h2 : ((3 * n : ℕ) : ℚ) < ((10 * c : ℕ) : ℚ) := by push_cast; linarith
    exact_mod_cast h2
  · intro h
    have h2 : ((3 * n : ℕ) : ℚ) < ((10 * c : ℕ) : ℚ) := by exact_mod_cast h
    push_cast at h2
    linarith

/-- The fixed-budget 0.35 comparison: `c/500 > 0.35` iff `c > 175`. -/
theorem thr35_lt_500_iff (c : Nat) : ((c : ℚ) / 500 > 35 / 100) ↔ 175 < c := by
  rw [gt_iff_lt, div_lt_div_iff (by norm_num) (by norm_num)]
  constructor
  · intro h
    by_contra hc
    push_neg at hc
    have hq : (c : ℚ) ≤ 175 := by exact_mod_cast hc
    linarith
  · intro h
    have hq : (175 : ℚ) < c := by exact_mod_cast h
    linarith

/-- The fixed-budget 0.3 comparison: `c/200 > 0.3` iff `c > 60`. -/
theorem thr3_lt_200_iff (c : Nat) : ((c : ℚ) / 200 > 3 / 10) ↔ 60 < c := by
  rw [gt_iff_lt, div_lt_div_iff (by norm_num) (by norm_num)]
  constructor
  · intro h
    by_contra hc
    push_neg at hc
    have hq : (c : ℚ) ≤ 60 := by exact_mod_cast hc
    linarith
  · intro h
    have hq : (60 : ℚ) < c := by exact_mod_cast h
    linarith

/-- The exhaustive loop of the byte-offset classifier computes the match
count and the rune count. -/
theorem exLoop_go (tset : Char → Bool) (l : List Char) (c n : Nat) :
    l.foldl (fun p ru => (if tset ru then p.1 + 1 else p.1, p.2 + 1)) (c, n) =
      (c + l.countP tset, n + l.length) := by
  induction l generalizing c n with
  | nil => simp
  | cons a l ih =>
    simp only [List.foldl_cons, List.countP_cons, List.length_cons]
    rw [ih]
    by_cases ha : tset a
    · simp only [ha, if_true, Prod.mk.injEq]
      omega
    · rw [if_neg (by simp [ha])]
      simp only [Prod.mk.injEq, ha, Bool.false_eq_true, if_false]
      omega

theorem exLoop_eq (tset : Char → Bool) (l : List Char) :
    DetectChinese.exLoop tset l = (l.countP tset, l.length) := by
  unfold DetectChinese.exLoop
  simpa using exLoop_go tset l 0 0

/-- The counting folds of the rune-index classifier compute `countP`. -/
theorem countFold_go {α : Type} (p : α → Bool) (l : List α) (c : Nat) :
    l.foldl (fun c x => if p x then c + 1 else c) c = c + l.countP p := by
  induction l generalizing c with
  | nil => simp
  | cons a l ih =>
    simp only [List.foldl_cons, List.countP_cons]
    rw [ih]
    by_cases ha : p a <;> simp [ha] <;> omega

/-- The ℚ-valued counting folds of the rune-index classifier (`c` is a
float64 accumulator in the source) compute `countP`. -/
theorem countFoldQ_go {α : Type} (p : α → Bool) (l : List α) (c : ℚ) :
    l.foldl (fun c x => if p x then c + 1 else c) c = c + (l.countP p : ℚ) := by
  induction l generalizing c with
  | nil => simp
  | cons a l ih =>
    simp only [List.foldl_cons, List.countP_cons]
    rw [ih]
    by_cases ha : p a
    · simp only [ha, if_true]
      push_cast
      ring
    · simp only [ha, Bool.false_eq_true, if_false, Nat.add_zero]

theorem countP_insertionSort (p : Nat → Bool) (l : List Nat) :
    (List.insertionSort (· ≤ ·) l).countP p = l.countP p :=
  (List.perm_insertionSort (· ≤ ·) l).countP_eq p

theorem length_insertionSort_eq (l : List Nat) :
    (List.insertionSort (· ≤ ·) l).length = l.length :=
  (List.perm_insertionSort (· ≤ ·) l).length_eq

/-- Exact rational values used to discharge equal-to-threshold hypotheses. -/
theorem ratio_175_500 : ((175 : ℚ) / 500) = 35 / 100 := by norm_num

theorem w20_ratio :
    ((Fixtures.w20.body.data.countP Fixtures.tsetA : ℚ) /
      (Fixtures.w20.body.data.length : ℚ)) = 35 / 100 := by
  have h1 : Fixtures.w20.body.data.countP Fixtures.tsetA = 7 := by decide
  have h2 : Fixtures.w20.body.data.length = 20 := by decide
  rw [h1, h2]
  norm_num

theorem part_ratio_3_10 :
    ((("aaabbbbbbb" : String).data.countP Fixtures.tsetA : ℚ) /
      ((("aaabbbbbbb" : String).data.length : Nat) : ℚ)) = 3 / 10 := by
  have h1 : ("aaabbbbbbb" : String).data.countP Fixtures.tsetA = 3 := by decide
  have h2 : ("aaabbbbbbb" : String).data.length = 10 := by decide
  rw [h1, h2]
  norm_num

/-- Full evaluation of the byte-offset classifier on the 500-CJK-rune
record with the all-zero random source: the body is 1500 bytes so the
sampled regime runs; all 500 draws land in the first rune, one distinct
sample is consulted, and 1/500 misses the threshold. -/
theorem process_han_eval :
    DetectChinese.process hanRecord rand0 tsetHan = DetectChinese.POut.msg "" := by
  have hi : DetectChinese.interpret hanRecord = DetectChinese.IRes.ok hanWarc := by decide
  have hlen : ¬ WarcShared.utf8Len hanWarc.body.data ≤ 500 := by decide
  have hsi : DetectChinese.sampleIndices rand0 500 (WarcShared.utf8Len hanWarc.body.data)
      = List.replicate 500 0 := by decide
  have hscan : DetectChinese.sampleScan tsetHan hanWarc.body.data 0 (List.replicate 500 0) 0 0
      = (1, 1, ([] : List Nat)) := by decide
  simp only [DetectChinese.process, hi, if_neg hlen, DetectChinese.sampledCase, hsi, hscan]
  norm_num [thr35_lt_500_iff]

/-- Full evaluation of the byte-offset classifier on the 501-'a' record
with the all-zero random source: 501 bytes, sampled regime, one distinct
sample consulted, ratio 1/500. -/
theorem process_a_eval :
    DetectChinese.process aRecord rand0 tsetA = DetectChinese.POut.msg "" := by
  have hi : DetectChinese.interpret aRecord = DetectChinese.IRes.ok aWarc := by decide
  have hlen : ¬ WarcShared.utf8Len aWarc.body.data ≤ 500 := by decide
  have hsi : DetectChinese.sampleIndices rand0 500 (WarcShared.utf8Len aWarc.body.data)
      = List.replicate 500 0 := by decide
  have hscan : DetectChinese.sampleScan tsetA aWarc.body.data 0 (List.replicate 500 0) 0 0
      = (1, 1, ([] : List Nat)) := by decide
  simp only [DetectChinese.process, hi, if_neg hlen, DetectChinese.sampledCase, hsi, hscan]
  norm_num [thr35_lt_500_iff]

end Helpers

open Fixtures in
/-- C3 (amended): the rune-index variant chooses its regime by the body's
codepoint count (≤ 200 exhaustive, > 200 sampled), but the byte-offset
variant chooses by the body's UTF-8 BYTE length (≤ 500 exhaustive, > 500
sampled), not by its codepoint count. -/
theorem c3_regime_choice :
    (∀ (r : List String) (rands : Nat → Nat) (tset : Char → Bool)
        (w : DetectChinese.warcRecord),
      DetectChinese.interpret r = DetectChinese.IRes.ok w →
      WarcShared.utf8Len w.body.data ≤ 500 →
      DetectChinese.process r rands tset = DetectChinese.exhaustiveCase w tset) ∧
    (∀ (r : List String) (rands : Nat → Nat) (tset : Char → Bool)
        (w : DetectChinese.warcRecord),
      DetectChinese.interpret r = DetectChinese.IRes.ok w →
      500 < WarcShared.utf8Len w.body.data →
      DetectChinese.process r rands tset = DetectChinese.sampledCase w rands tset) ∧
    (∀ (r : List String) (rands : Nat → Nat) (tset : Char → Bool) (b : List String),
      RuneVariant.recordBody r = some b →
      (WarcShared.joinSep " " b).data.length ≤ 200 →
      RuneVariant.process r rands tset =
        RuneVariant.exhaustiveCase (WarcShared.joinSep " " b)
          (WarcShared.joinSep " " b).data tset) ∧
    (∀ (r : List String) (rands : Nat → Nat) (tset : Char → Bool) (b : List String),
      RuneVariant.recordBody r = some b →
      200 < (WarcShared.joinSep " " b).data.length →
      RuneVariant.process r rands tset =
        RuneVariant.sampledCase (WarcShared.joinSep " " b)
          (WarcShared.joinSep " " b).data rands tset) := by
  refine ⟨?_, ?_, ?_, ?_⟩
  · intro r rands tset w hi hle
    simp only [DetectChinese.process, hi, if_pos hle]
  · intro r rands tset w hi hgt
    simp only [DetectChinese.process, hi, if_neg (not_le.mpr hgt)]
  · intro r rands tset b hb hle
    simp only [RuneVariant.process, hb, if_pos hle]
  · intro r rands tset b hb hgt
    simp only [RuneVariant.process, hb, if_neg (not_le.mpr hgt)]

open Fixtures in
/-- Witness for C3: a concrete 3-byte ASCII body goes through the
exhaustive regime of the byte-offset variant. -/
theorem c3_regime_choice_witness :
    DetectChinese.interpret ["WARC/1.0", "WARC-Record-ID: id1", "abc"] =
      DetectChinese.IRes.ok ⟨"id1", "abc"⟩ ∧
    WarcShared.utf8Len (DetectChinese.warcRecord.mk "id1" "abc").body.data ≤ 500 ∧
    DetectChinese.process ["WARC/1.0", "WARC-Record-ID: id1", "abc"] rand0 tsetA =
      DetectChinese.exhaustiveCase ⟨"id1", "abc"⟩ tsetA :=
  ⟨by decide, by decide,
    c3_regime_choice.1 _ rand0 tsetA _ (by decide) (by decide)⟩

open Fixtures in
/-- C3 counterexample: a body of exactly 500 codepoints (the sample
budget n of the byte-offset variant) does NOT use the exhaustive regime:
its 1500-byte encoding sends it through the sampled regime, whose verdict
(no match) differs from the exhaustive regime's verdict on the same
record (match, since every codepoint is in the target set). -/
theorem c3_counterexample :
    DetectChinese.interpret hanRecord = DetectChinese.IRes.ok hanWarc ∧
    hanWarc.body.data.length = 500 ∧
    DetectChinese.process hanRecord rand0 tsetHan = DetectChinese.POut.msg "" ∧
    DetectChinese.exhaustiveCase hanWarc tsetHan = DetectChinese.POut.msg "id1" := by
  refine ⟨by decide, by decide, process_han_eval, ?_⟩
  have h1 : hanWarc.body.data.countP tsetHan = 500 := by decide
  have h2 : hanWarc.body.data.length = 500 := by decide
  simp only [DetectChinese.exhaustiveCase, exLoop_eq, h1, h2]
  rw [if_pos (by rw [thr35_lt_iff 500 500 (by norm_num)]; norm_num)]
  rfl

open Fixtures in
/-- C4 (amended): in the sampled regime of the byte-offset variant the
ratio divides the match count by the fixed budget 500, not by the number
of distinct samples actually consulted (which is computed but unused). -/
theorem c4_ratio_fixed_budget :
    ∀ (w : DetectChinese.warcRecord) (rands : Nat → Nat) (tset : Char → Bool)
      (c m : Nat),
      w.id ≠ "" →
      DetectChinese.sampleScan tset w.body.data 0
        (DetectChinese.sampleIndices rands 500 (WarcShared.utf8Len w.body.data)) 0 0
        = (c, m, []) →
      (DetectChinese.sampledCase w rands tset = DetectChinese.POut.msg w.id ↔
        (c : ℚ) / 500 > 35 / 100) := by
  intro w rands tset c m hid hscan
  simp only [DetectChinese.sampledCase, hscan, ne_eq, not_true_eq_false, if_false]
  by_cases hr : (c : ℚ) / 500 > 35 / 100
  · simp [hr]
  · simp [hr, Ne.symm hid]

open Fixtures in
/-- Witness for C4 at the 501-'a' record: one distinct sample consulted,
one match, and the decision is governed by 1/500. -/
theorem c4_ratio_fixed_budget_witness :
    aWarc.id ≠ "" ∧
    DetectChinese.sampleScan tsetA aWarc.body.data 0
      (DetectChinese.sampleIndices rand0 500 (WarcShared.utf8Len aWarc.body.data)) 0 0
      = (1, 1, []) ∧
    (DetectChinese.sampledCase aWarc rand0 tsetA = DetectChinese.POut.msg aWarc.id ↔
      (1 : ℚ) / 500 > 35 / 100) :=
  ⟨by decide, by decide,
    c4_ratio_fixed_budget aWarc rand0 tsetA 1 1 (by decide) (by decide)⟩

open Fixtures in
/-- C4 counterexample: on the 501-'a' body with all draws at offset 0,
one distinct sample is consulted and it matches, so the claimed ratio
(matches / consulted = 1/1) exceeds the threshold — yet the classifier
reports no match, because it divides by the fixed budget 500. -/
theorem c4_counterexample :
    DetectChinese.sampleScan tsetA aWarc.body.data 0
      (DetectChinese.sampleIndices rand0 500 (WarcShared.utf8Len aWarc.body.data)) 0 0
      = (1, 1, []) ∧
    ((1 : ℚ) / 1 > 35 / 100) ∧
    DetectChinese.process aRecord rand0 tsetA = DetectChinese.POut.msg "" :=
  ⟨by decide, by norm_num, process_a_eval⟩

open Fixtures in
/-- C5 (amended): the byte-offset variant's fatal check verifies only that
every one of the 500 sampled byte offsets was accounted for (panicking
iff some remain unconsumed); the number of DISTINCT samples consulted may
be smaller.  The rune-index variant consults exactly 200 sampled
positions counting multiplicity and has no fatal check at all. -/
theorem c5_sample_accounting :
    (∀ (w : DetectChinese.warcRecord) (rands : Nat → Nat) (tset : Char → Bool),
      (DetectChinese.sampledCase w rands tset =
          DetectChinese.POut.panicked "Only found j of n samples") ↔
        (DetectChinese.sampleScan tset w.body.data 0
          (DetectChinese.sampleIndices rands 500 (WarcShared.utf8Len w.body.data))
          0 0).2.2 ≠ []) ∧
    (∀ (rands : Nat → Nat) (runes : List Char),
      (List.insertionSort (· ≤ ·)
        ((List.range 200).map (fun i => rands i % runes.length))).length = 200) := by
  constructor
  · intro w rands tset
    simp only [DetectChinese.sampledCase]
    by_cases hrem : (DetectChinese.sampleScan tset w.body.data 0
        (DetectChinese.sampleIndices rands 500 (WarcShared.utf8Len w.body.data))
        0 0).2.2 = []
    · simp only [hrem, ne_eq, not_true_eq_false, if_false]
      by_cases hr : ((DetectChinese.sampleScan tset w.body.data 0
          (DetectChinese.sampleIndices rands 500 (WarcShared.utf8Len w.body.data))
          0 0).1 : ℚ) / 500 > 35 / 100
      · simp [hr]
      · simp [hr]
    · simp [hrem]
  · intro rands runes
    rw [length_insertionSort_eq, List.length_map, List.length_range]

/-- C7: in both classifier variants and both regimes the decision is
Match exactly when the computed ratio strictly exceeds the threshold
(0.35 for the byte-offset variant, 0.3 for the rune-index variant); a
ratio exactly equal to the threshold yields NoMatch.  Conjuncts: the two
exhaustive regimes and the rune-index sampled regime as closed-form
equations over their ratios, the equal-to-threshold cases, and the
byte-offset sampled regime's two threshold cases. -/
theorem c7_threshold_strict :
    (∀ (w : DetectChinese.warcRecord) (tset : Char → Bool),
      DetectChinese.exhaustiveCase w tset =
        if (w.body.data.countP tset : ℚ) / (w.body.data.length : ℚ) > 35 / 100
        then DetectChinese.POut.msg w.id else DetectChinese.POut.msg "") ∧
    (∀ (w : DetectChinese.warcRecord) (tset : Char → Bool),
      (w.body.data.countP tset : ℚ) / (w.body.data.length : ℚ) = 35 / 100 →
      DetectChinese.exhaustiveCase w tset = DetectChinese.POut.msg "") ∧
    (∀ (w : DetectChinese.warcRecord) (rands : Nat → Nat) (tset : Char → Bool)
        (c m : Nat),
      DetectChinese.sampleScan tset w.body.data 0
        (DetectChinese.sampleIndices rands 500 (WarcShared.utf8Len w.body.data)) 0 0
        = (c, m, []) →
      (c : ℚ) / 500 = 35 / 100 →
      DetectChinese.sampledCase w rands tset = DetectChinese.POut.msg "") ∧
    (∀ (w : DetectChinese.warcRecord) (rands : Nat → Nat) (tset : Char → Bool)
        (c m : Nat),
      DetectChinese.sampleScan tset w.body.data 0
        (DetectChinese.sampleIndices rands 500 (WarcShared.utf8Len w.body.data)) 0 0
        = (c, m, []) →
      (c : ℚ) / 500 > 35 / 100 →
      DetectChinese.sampledCase w rands tset = DetectChinese.POut.msg w.id) ∧
    (∀ (bodyStr : String) (runes : List Char) (tset : Char → Bool),
      RuneVariant.exhaustiveCase bodyStr runes tset =
        if (runes.countP tset : ℚ) / (runes.length : ℚ) > 3 / 10
        then bodyStr else "") ∧
    (∀ (bodyStr : String) (runes : List Char) (rands : Nat → Nat)
        (tset : Char → Bool),
      RuneVariant.sampledCase bodyStr runes rands tset =
        if ((((List.range 200).map (fun i => rands i % runes.length)).countP
              (fun i => tset (runes.getD i 'A')) : ℚ)) / 200 > 3 / 10
        then bodyStr else "") ∧
    (∀ (bodyStr : String) (runes : List Char) (tset : Char → Bool),
      (runes.countP tset : ℚ) / (runes.length : ℚ) = 3 / 10 →
      RuneVariant.exhaustiveCase bodyStr runes tset = "") := by
  refine ⟨?_, ?_, ?_, ?_, ?_, ?_, ?_⟩
  · intro w tset
    simp only [DetectChinese.exhaustiveCase, exLoop_eq]
  · intro w tset h
    simp only [DetectChinese.exhaustiveCase, exLoop_eq, h]
    rw [if_neg (lt_irrefl _)]
  · intro w rands tset c m hscan hr
    simp only [DetectChinese.sampledCase, hscan, ne_eq, not_true_eq_false, if_false, hr]
    rw [if_neg (lt_irrefl _)]
  · intro w rands tset c m hscan hr
    simp only [DetectChinese.sampledCase, hscan, ne_eq, not_true_eq_false, if_false]
    rw [if_pos hr]
  · intro bodyStr runes tset
    simp only [RuneVariant.exhaustiveCase]
    rw [countFoldQ_go tset runes 0]
    simp only [zero_add]
  · intro bodyStr runes rands tset
    simp only [RuneVariant.sampledCase]
    rw [countFoldQ_go (fun i => tset (runes.getD i 'A'))
      (List.insertionSort (· ≤ ·) ((List.range 200).map (fun i => rands i % runes.length))) 0]
    simp only [zero_add, countP_insertionSort]
  · intro bodyStr runes tset h
    simp only [RuneVariant.exhaustiveCase]
    rw [countFoldQ_go tset runes 0]
    simp only [zero_add, h]
    rw [if_neg (lt_irrefl _)]

open Fixtures in
/-- Witness for C7: concrete equal-to-threshold and just-above-threshold
records in both variants and regimes. -/
theorem c7_threshold_strict_witness :
    DetectChinese.exhaustiveCase w20 tsetA = DetectChinese.POut.msg "" ∧
    DetectChinese.sampledCase mixWarc175 randId tsetA = DetectChinese.POut.msg "" ∧
    DetectChinese.sampledCase mixWarc176 randId tsetA = DetectChinese.POut.msg "id1" ∧
    RuneVariant.exhaustiveCase "aaabbbbbbb" ("aaabbbbbbb" : String).data tsetA = "" :=
  ⟨c7_threshold_strict.2.1 w20 tsetA w20_ratio,
   c7_threshold_strict.2.2.1 mixWarc175 randId tsetA 175 500 (by decide) ratio_175_500,
   c7_threshold_strict.2.2.2.1 mixWarc176 randId tsetA 176 500 (by decide)
     ((thr35_lt_500_iff 176).mpr (by decide)),
   c7_threshold_strict.2.2.2.2.2.2 "aaabbbbbbb" ("aaabbbbbbb" : String).data tsetA
     part_ratio_3_10⟩

open Fixtures in
/-- C5 counterexample: the 501-'a' body with all draws at offset 0
consults exactly ONE distinct sample (m = 1, not 500), yet the classifier
concludes normally with no panic. -/
theorem c5_counterexample :
    (DetectChinese.sampleScan tsetA aWarc.body.data 0
      (DetectChinese.sampleIndices rand0 500 (WarcShared.utf8Len aWarc.body.data))
      0 0).2.1 = 1 ∧
    DetectChinese.process aRecord rand0 tsetA = DetectChinese.POut.msg "" :=
  ⟨by decide, process_a_eval⟩

/-- C6: the correlator emits a (filename, offset, deflate-length) triple
for a parsed record exactly when the record's type is "metadata", its
refers-to identifier is present and in the reference set, the decoded
envelope's header-metadata type is "response", the embedded HTTP status
is exactly 200, and the response content type contains "text/html"; and
it panics (fatal framing error) exactly when a metadata record's
refers-to identifier is absent. -/
theorem c6_correlator_filter :
    ∀ (ids : String → Bool)
      (decode : ReadMeta.WarcMeta → List Char → Option ReadMeta.WarcMeta)
      (prev m : ReadMeta.WarcMeta) (r : ReadMeta.record) (f : String) (o d : Int),
      (ReadMeta.metaStep ids decode prev r = Except.ok (some (f, o, d), m) ↔
        (r.warcType = "metadata" ∧ r.refersTo ≠ "" ∧ ids r.refersTo = true ∧
          decode prev r.data = some m ∧
          m.envelope.headerMetaData.type = "response" ∧
          m.envelope.payloadMetaData.responseMeta.responseInfo.status = 200 ∧
          WarcShared.containsSub
            m.envelope.payloadMetaData.responseMeta.headers.contentType "text/html"
            = true ∧
          f = m.container.filename ∧ o = m.container.offset ∧
          d = m.container.gzipMeta.deflateLength)) ∧
      (ReadMeta.metaStep ids decode prev r =
          Except.error ReadMeta.MetaAbort.panicNoRefers ↔
        (r.warcType = "metadata" ∧ r.refersTo = "")) := by
  intro ids decode prev m r f o d
  unfold ReadMeta.metaStep
  by_cases h1 : r.warcType = "metadata"
  · rw [if_neg (not_not_intro h1)]
    by_cases h2 : r.refersTo = ""
    · rw [if_pos h2]
      constructor
      · constructor
        · intro h; cases h
        · rintro ⟨-, hne, -⟩; exact absurd h2 hne
      · simp [h1, h2]
    · rw [if_neg h2]
      by_cases h3 : ids r.refersTo
      · rw [if_neg (not_not_intro h3)]
        cases hd : decode prev r.data with
        | none =>
          simp only [hd]
          constructor
          · constructor
            · intro h; cases h
            · rintro ⟨-, -, -, hm, -⟩; cases hm
          · constructor
            · intro h; simp at h
            · rintro ⟨-, hc⟩; exact absurd hc h2
        | some mm =>
          simp only [hd]
          by_cases h5 : mm.envelope.headerMetaData.type = "response"
          · rw [if_pos h5]
            by_cases h6 : mm.envelope.payloadMetaData.responseMeta.responseInfo.status = 200
            · rw [if_neg (not_not_intro h6)]
              by_cases h7 : WarcShared.containsSub
                  mm.envelope.payloadMetaData.responseMeta.headers.contentType "text/html"
              · rw [if_pos h7]
                constructor
                · constructor
                  · intro h
                    simp only [Except.ok.injEq, Prod.mk.injEq, Option.some.injEq] at h
                    obtain ⟨⟨hf, ho, hdl⟩, hm⟩ := h
                    subst hm
                    exact ⟨h1, h2, h3, rfl, h5, h6, h7, hf.symm, ho.symm, hdl.symm⟩
                  · rintro ⟨-, -, -, hm, -, -, -, hf, ho, hdl⟩
                    injection hm with hm'
                    subst hm'
                    rw [hf, ho, hdl]
                · constructor
                  · intro h; cases h
                  · rintro ⟨-, hc⟩; exact absurd hc h2
              · rw [if_neg h7]
                constructor
                · constructor
                  · intro h; simp at h
                  · rintro ⟨-, -, -, hm, -, -, hcb, -⟩
                    injection hm with hm'
                    subst hm'
                    exact absurd hcb h7
                · constructor
                  · intro h; cases h
                  · rintro ⟨-, hc⟩; exact absurd hc h2
            · rw [if_pos h6]
              constructor
              · constructor
                · intro h; simp at h
                · rintro ⟨-, -, -, hm, -, hst, -⟩
                  injection hm with hm'
                  subst hm'
                  exact absurd hst h6
              · constructor
                · intro h; cases h
                · rintro ⟨-, hc⟩; exact absurd hc h2
          · rw [if_neg h5]
            constructor
            · constructor
              · intro h; simp at h
              · rintro ⟨-, -, -, hm, hresp, -⟩
                injection hm with hm'
                subst hm'
                exact absurd hresp h5
            · constructor
              · intro h; cases h
              · rintro ⟨-, hc⟩; exact absurd hc h2
      · rw [if_pos h3]
        constructor
        · constructor
          · intro h; simp at h
          · rintro ⟨-, -, hids, -⟩; exact absurd hids h3
        · constructor
          · intro h; cases h
          · rintro ⟨-, hc⟩; exact absurd hc h2
  · rw [if_pos h1]
    constructor
    · constructor
      · intro h; simp at h
      · rintro ⟨hty, -⟩; exact absurd hty h1
    · constructor
      · intro h; cases h
      · rintro ⟨hty, -⟩; exact absurd hty h1

open Fixtures in
/-- C2: a stream whose record declares 10 body bytes but ends after 3:
`nextRecord` returns the same `(nil, io.EOF)` value a clean end of stream
produces, and `readMeta` then leaves its loop normally with no fatal
abort — body truncation IS treated as normal end-of-stream termination. -/
theorem c2_truncation_treated_as_clean_eof :
    ReadMeta.nextRecord truncStream = ReadMeta.NRes.eofEnd ∧
    ReadMeta.readMeta (fun _ => false) (fun _ _ => none) truncStream "" ReadMeta.zeroMeta
      = Except.ok [] := by
  have hseek : ReadMeta.seekMarker truncStream
      = ReadMeta.SeekRes.ok "Content-Length: 10\n\nabc".data := by
    rw [ReadMeta.seekMarker]
    decide
  have hnext : ReadMeta.nextRecord truncStream = ReadMeta.NRes.eofEnd := by
    unfold ReadMeta.nextRecord
    rw [hseek]
    decide
  refine ⟨hnext, ?_⟩
  rw [ReadMeta.readMeta, hnext]

/-- C8: when the header stage of `nextRecord` completes with a declared
length of 0 — whether from an explicit `Content-Length: 0` line or from
the absence of any Content-Length line — `nextRecord` panics instead of
returning a record with an empty body. -/
theorem c8_zero_length_panics :
    ∀ (s rest rest2 : List Char) (f : ReadMeta.HFields),
      ReadMeta.seekMarker s = ReadMeta.SeekRes.ok rest →
      ReadMeta.parseHeader 100 ReadMeta.initFields rest = ReadMeta.HRes.ok f rest2 →
      f.length = 0 →
      ReadMeta.nextRecord s = ReadMeta.NRes.panicked "No record length" := by
  intro s rest rest2 f hseek hph hz
  unfold ReadMeta.nextRecord
  simp only [hseek, hph, if_pos hz]

theorem seek_noLen_eval :
    ReadMeta.seekMarker Fixtures.noLenStream = ReadMeta.SeekRes.ok "\n".data := by
  rw [ReadMeta.seekMarker]
  decide

theorem parse_noLen_eval :
    ReadMeta.parseHeader 100 ReadMeta.initFields "\n".data
      = ReadMeta.HRes.ok ReadMeta.initFields [] := by
  decide

theorem seek_zeroLen_eval :
    ReadMeta.seekMarker Fixtures.zeroLenStream
      = ReadMeta.SeekRes.ok "Content-Length: 0\n\nxy".data := by
  rw [ReadMeta.seekMarker]
  decide

theorem parse_zeroLen_eval :
    ReadMeta.parseHeader 100 ReadMeta.initFields "Content-Length: 0\n\nxy".data
      = ReadMeta.HRes.ok ⟨0, "", "", ["WARC/1.0", "Content-Length: 0"]⟩ "xy".data := by
  decide

/-- Witness for C8: both a header with no Content-Length line and a
header declaring Content-Length 0 make `nextRecord` panic. -/
theorem c8_zero_length_panics_witness :
    ReadMeta.nextRecord Fixtures.noLenStream
      = ReadMeta.NRes.panicked "No record length" ∧
    ReadMeta.nextRecord Fixtures.zeroLenStream
      = ReadMeta.NRes.panicked "No record length" :=
  ⟨c8_zero_length_panics _ _ _ _ seek_noLen_eval parse_noLen_eval rfl,
   c8_zero_length_panics _ _ _ _ seek_zeroLen_eval parse_zeroLen_eval rfl⟩

theorem readWarcAux_eq_foldLines (s : List Char) (rec : List String) :
    WarcLoop.readWarcAux s rec = WarcLoop.foldLines (WarcLoop.linesOf s) rec := by
  induction s, rec using WarcLoop.readWarcAux.induct with
  | case1 s rec heq =>
    rw [WarcLoop.readWarcAux, heq, WarcLoop.linesOf, heq]
    rfl
  | case2 s rec line rest heq hm ih =>
    rw [WarcLoop.readWarcAux, heq, WarcLoop.linesOf, heq]
    simp only [if_pos hm, WarcLoop.foldLines, ih]
  | case3 s rec line rest heq hm ih =>
    rw [WarcLoop.readWarcAux, heq, WarcLoop.linesOf, heq]
    simp only [if_neg hm, WarcLoop.foldLines, ih]

theorem foldLines_no_marker :
    ∀ (ls rec : List String), (∀ l ∈ ls, l ≠ "WARC/1.0") →
      WarcLoop.foldLines ls rec = ([], 0) := by
  intro ls
  induction ls with
  | nil => intro rec _; rfl
  | cons t ls ih =>
    intro rec h
    have ht : t ≠ "WARC/1.0" := h t (by simp)
    simp only [WarcLoop.foldLines, if_neg ht]
    exact ih _ (fun l hl => h l (by simp [hl]))

/-- C9: the dispatcher never launches a task for the lines accumulated
after the final record-start marker (the stream's last record produces no
classification result), and the first launched task receives exactly the
lines preceding the first marker.  Conjuncts: `readWarc` is the line-wise
fold of the trimmed lines; lines after the last marker change neither the
dispatched records nor the announced count; and the first dispatched
record is the pre-marker prefix. -/
theorem c9_trailing_lines_undispatched :
    (∀ s : List Char,
      WarcLoop.readWarc s = WarcLoop.foldLines (WarcLoop.linesOf s) []) ∧
    (∀ (ls1 ls2 rec : List String),
      (∀ l ∈ ls2, l ≠ "WARC/1.0") →
      WarcLoop.foldLines (ls1 ++ ls2) rec = WarcLoop.foldLines ls1 rec) ∧
    (∀ (pre suf : List String),
      (∀ l ∈ pre, l ≠ "WARC/1.0") →
      (WarcLoop.foldLines (pre ++ "WARC/1.0" :: suf) []).1.head? = some pre) := by
  refine ⟨?_, ?_, ?_⟩
  · intro s
    exact readWarcAux_eq_foldLines s []
  · intro ls1
    induction ls1 with
    | nil =>
      intro ls2 rec h
      simp only [List.nil_append]
      rw [foldLines_no_marker ls2 rec h]
      rfl
    | cons t ls1 ih =>
      intro ls2 rec h
      simp only [List.cons_append, WarcLoop.foldLines, List.append_eq]
      by_cases ht : t = "WARC/1.0"
      · simp only [if_pos ht]
        rw [ih ls2 [t] h]
      · simp only [if_neg ht]
        exact ih ls2 _ h
  · intro pre
    have haux : ∀ (suf rec : List String), (∀ l ∈ pre, l ≠ "WARC/1.0") →
        (WarcLoop.foldLines (pre ++ "WARC/1.0" :: suf) rec).1.head? =
          some (rec ++ pre) := by
      induction pre with
      | nil =>
        intro suf rec _
        simp [WarcLoop.foldLines]
      | cons t pre ih =>
        intro suf rec h
        have ht : t ≠ "WARC/1.0" := h t (by simp)
        simp only [List.cons_append, WarcLoop.foldLines, if_neg ht, List.append_eq]
        rw [ih suf (rec ++ [t]) (fun l hl => h l (by simp [hl]))]
        simp
    intro suf h
    simpa using haux suf [] h

/-- Witness for C9: with one marker followed by two trailing lines the
dispatch list and count ignore the trailing lines, and with one line
before the first marker the first dispatched record is exactly that
line. -/
theorem c9_trailing_lines_undispatched_witness :
    WarcLoop.foldLines (["WARC/1.0"] ++ ["hello", "world"]) []
      = WarcLoop.foldLines ["WARC/1.0"] [] ∧
    (WarcLoop.foldLines (["intro"] ++ "WARC/1.0" :: ["hello"]) []).1.head?
      = some ["intro"] :=
  ⟨c9_trailing_lines_undispatched.2.1 ["WARC/1.0"] ["hello", "world"] [] (by decide),
   c9_trailing_lines_undispatched.2.2 ["intro"] ["hello"] (by decide)⟩

theorem interpretAux_no_id :
    ∀ (r body : List String),
      (∀ l ∈ r, l ≠ "WARC-Type: warcinfo") →
      (∀ l ∈ r, WarcShared.hasPrefixStr l "WARC-Record-ID: " = false) →
      DetectChinese.interpretAux r body "" =
        (if body ++ specReconstructedBody r = [] then DetectChinese.IRes.skip
         else DetectChinese.IRes.panicked "Record missing ID") := by
  intro r
  induction r with
  | nil =>
    intro body _ _
    simp [DetectChinese.interpretAux, specReconstructedBody]
  | cons line rest ih =>
    intro body h1 h2
    have hw : line ≠ "WARC-Type: warcinfo" := h1 line (by simp)
    have hid : WarcShared.hasPrefixStr line "WARC-Record-ID: " = false :=
      h2 line (by simp)
    have h1r : ∀ l ∈ rest, l ≠ "WARC-Type: warcinfo" :=
      fun l hl => h1 l (by simp [hl])
    have h2r : ∀ l ∈ rest, WarcShared.hasPrefixStr l "WARC-Record-ID: " = false :=
      fun l hl => h2 l (by simp [hl])
    by_cases hb : line = ""
    · simp only [DetectChinese.interpretAux, if_pos hb, ih body h1r h2r]
      simp [specReconstructedBody, List.filter_cons, hb]
    · by_cases hp : WarcShared.hasPrefixStr line "WARC" = true
      · simp only [DetectChinese.interpretAux, if_neg hb, hp, if_true, if_neg hw,
          hid, Bool.false_eq_true, if_false, ih body h1r h2r]
        simp [specReconstructedBody, List.filter_cons, hb, hp]
      · by_cases hc : WarcShared.hasPrefixStr line "Content-" = true
        · simp only [DetectChinese.interpretAux, if_neg hb,
            hp, Bool.false_eq_true, if_false, hc, if_true, ih body h1r h2r]
          simp [specReconstructedBody, List.filter_cons, hb, hp, hc]
        · simp only [DetectChinese.interpretAux, if_neg hb,
            hp, hc, Bool.false_eq_true, if_false, ih (body ++ [line]) h1r h2r]
          simp [specReconstructedBody, List.filter_cons, hb, hp, hc]

/-- C10 (amended): a record with a non-empty reconstructed body, no
"WARC-Type: warcinfo" line, and no line beginning with
"WARC-Record-ID: " makes `interpret` panic. -/
theorem c10_missing_id_panics :
    ∀ r : List String,
      (∀ l ∈ r, l ≠ "WARC-Type: warcinfo") →
      (∀ l ∈ r, WarcShared.hasPrefixStr l "WARC-Record-ID: " = false) →
      specReconstructedBody r ≠ [] →
      DetectChinese.interpret r = DetectChinese.IRes.panicked "Record missing ID" := by
  intro r h1 h2 hne
  unfold DetectChinese.interpret
  rw [interpretAux_no_id r [] h1 h2]
  simp [hne]

/-- Witness for C10: a record holding a single body line and no header
panics. -/
theorem c10_missing_id_panics_witness :
    DetectChinese.interpret ["hello"]
      = DetectChinese.IRes.panicked "Record missing ID" :=
  c10_missing_id_panics ["hello"] (by decide) (by decide) (by decide)

/-- C10 counterexample: a record containing a "WARC-Type: warcinfo" line
has a non-empty reconstructed body and no WARC-Record-ID line, yet
`interpret` skips it (returns nil) instead of panicking. -/
theorem c10_counterexample :
    DetectChinese.interpret ["WARC-Type: warcinfo", "hello"]
      = DetectChinese.IRes.skip ∧
    specReconstructedBody ["WARC-Type: warcinfo", "hello"] = ["hello"] ∧
    (["WARC-Type: warcinfo", "hello"].all
      (fun l => !WarcShared.hasPrefixStr l "WARC-Record-ID: ")) = true :=
  ⟨by decide, by decide, by decide⟩
